import Mathlib

/-!
Verification of the qunix kernel core against its specification.

Each Rust data type and function that the verified properties mention is
shallowly embedded as an executable Lean definition, translated from the
source files under `src/`.  Machine integers (`u16`, `u32`, `u64`, `usize`)
are modelled as `Nat`; bit-level operations use `Nat.lor` / `Nat.land` /
`Nat.shiftLeft` with explicit masks where the Rust code manipulates bits.
Pointer-typed syscall arguments are modelled as `Option` values
(`none` = null pointer).  Fallible Rust functions returning `FsResult<T>`
become `Except FsError t`; functions that mutate `self` additionally return
the new state.
-/

set_option maxRecDepth 4096

namespace Qunix

/-! ## fs/mod.rs : `FileType`, `FileMode`, `FsError` -/

/-- Rust `FileType` from `src/fs/mod.rs`. -/
inductive FileType where
  | Regular
  | Directory
  | Symlink
  | CharDevice
  | BlockDevice
  | Fifo
  | Socket
deriving DecidableEq, Repr

/-- Rust `FsError` from `src/fs/mod.rs`. -/
inductive FsError where
  | NotFound
  | PermissionDenied
  | AlreadyExists
  | NotDirectory
  | IsDirectory
  | NotEmpty
  | InvalidPath
  | IoError
  | NoSpace
  | ReadOnly
  | TooManyLinks
  | NameTooLong
  | InvalidArgument
  | NotSupported
  | Busy
deriving DecidableEq, Repr

/-- Rust `FileMode(pub u16)` from `src/fs/mod.rs` (value kept below `2^16`). -/
structure FileMode where
  val : Nat
deriving DecidableEq, Repr

def FileMode.S_IFMT : Nat := 0o170000

def FileMode.S_IFSOCK : Nat := 0o140000

def FileMode.S_IFLNK : Nat := 0o120000

def FileMode.S_IFREG : Nat := 0o100000

def FileMode.S_IFBLK : Nat := 0o060000

def FileMode.S_IFDIR : Nat := 0o040000

def FileMode.S_IFCHR : Nat := 0o020000

def FileMode.S_IFIFO : Nat := 0o010000

/-- Rust `FileMode::file_type` from `src/fs/mod.rs`. -/
def FileMode.file_type (m : FileMode) : FileType :=
  let t := m.val &&& FileMode.S_IFMT
  if t = FileMode.S_IFREG then .Regular
  else if t = FileMode.S_IFDIR then .Directory
  else if t = FileMode.S_IFLNK then .Symlink
  else if t = FileMode.S_IFCHR then .CharDevice
  else if t = FileMode.S_IFBLK then .BlockDevice
  else if t = FileMode.S_IFIFO then .Fifo
  else if t = FileMode.S_IFSOCK then .Socket
  else .Regular

/-- Rust `FileMode::is_dir` from `src/fs/mod.rs`. -/
def FileMode.is_dir (m : FileMode) : Bool :=
  (m.val &&& FileMode.S_IFMT) = FileMode.S_IFDIR

/-! ## fs/vfs/node.rs : directory entries and VFS nodes -/

/-- Rust `DirEntry` from `src/fs/vfs/node.rs`. -/
structure DirEntry where
  name : String
  inode : Nat
  file_type : FileType
deriving DecidableEq, Repr

/-- Rust `VfsNodeData` from `src/fs/vfs/node.rs`.  Byte vectors are `List Nat`
(each element a byte value); a symlink target is stored as the UTF-8 bytes
of the target string.  The `Mounted` variant carries an opaque filesystem
handle, modelled as a numeric id. -/
inductive VfsNodeData where
  | Regular (data : List Nat)
  | Directory (entries : List DirEntry)
  | Symlink (target : List Nat)
  | Device (dev : Nat)
  | Fifo
  | Socket
  | Mounted (fsHandle : Nat)
deriving DecidableEq, Repr

/-- Rust `VfsNode` from `src/fs/vfs/node.rs`. -/
structure VfsNode where
  name : String
  inode : Nat
  mode : FileMode
  uid : Nat
  gid : Nat
  size : Nat
  atime : Nat
  mtime : Nat
  ctime : Nat
  nlink : Nat
  device : Option Nat
  data : VfsNodeData
deriving DecidableEq, Repr

/-- Rust `VfsNode::new_file` from `src/fs/vfs/node.rs`. -/
def VfsNode.new_file (name : String) (inode : Nat) (mode : Nat) : VfsNode :=
  { name := name
    inode := inode
    mode := ⟨FileMode.S_IFREG ||| (mode &&& 0o7777)⟩
    uid := 0
    gid := 0
    size := 0
    atime := 0
    mtime := 0
    ctime := 0
    nlink := 1
    device := none
    data := .Regular [] }

/-- Rust `VfsNode::new_directory` from `src/fs/vfs/node.rs`: the fresh directory
holds a single `.` entry pointing at itself and has `nlink = 2`. -/
def VfsNode.new_directory (name : String) (inode : Nat) (mode : Nat) : VfsNode :=
  { name := name
    inode := inode
    mode := ⟨FileMode.S_IFDIR ||| (mode &&& 0o7777)⟩
    uid := 0
    gid := 0
    size := 0
    atime := 0
    mtime := 0
    ctime := 0
    nlink := 2
    device := none
    data := .Directory [⟨".", inode, .Directory⟩] }

/-- Rust `VfsNode::is_dir` from `src/fs/vfs/node.rs`. -/
def VfsNode.is_dir (n : VfsNode) : Bool :=
  n.mode.is_dir

/-- Rust `VfsNode::read` from `src/fs/vfs/node.rs`.  The caller's buffer is
represented by its length; the result carries the returned byte count and
the bytes written into the buffer prefix. -/
def VfsNode.read (n : VfsNode) (offset : Nat) (bufLen : Nat) :
    Except FsError (Nat × List Nat) :=
  match n.data with
  | .Regular data =>
      if data.length ≤ offset then .ok (0, [])
      else
        let start := offset
        let stop := min (start + bufLen) data.length
        let len := stop - start
        .ok (len, (data.drop start).take len)
  | .Symlink target =>
      if target.length ≤ offset then .ok (0, [])
      else
        let start := offset
        let stop := min (start + bufLen) target.length
        let len := stop - start
        .ok (len, (target.drop start).take len)
  | _ => .error .InvalidArgument

/-- Rust `VfsNode::add_entry` from `src/fs/vfs/node.rs`. -/
def VfsNode.add_entry (n : VfsNode) (entry : DirEntry) :
    Except FsError VfsNode :=
  match n.data with
  | .Directory entries =>
      if entries.any (fun e => e.name = entry.name) then
        .error .AlreadyExists
      else
        .ok { n with data := .Directory (entries ++ [entry]) }
  | _ => .error .NotDirectory

/-- Rust `VfsNode::lookup` from `src/fs/vfs/node.rs`. -/
def VfsNode.lookup (n : VfsNode) (name : String) : Except FsError DirEntry :=
  match n.data with
  | .Directory entries =>
      match entries.find? (fun e => e.name = name) with
      | some e => .ok e
      | none => .error .NotFound
  | _ => .error .NotDirectory

/-! ## Claim C10 : `VfsNode::read` end-of-file and in-range behaviour -/

/-- C10: for every regular-file or symlink VFS node, `read(offset, buf)`
with `offset` at or past the end of the stored data returns `Ok(0)` rather
than an error, and for offsets inside the data it returns exactly
`min(buf.len(), data.len() - offset)` bytes copied from the data at that
offset. -/
theorem vfsnode_read_eof_and_inrange (n : VfsNode) (bytes : List Nat)
    (offset bufLen : Nat)
    (hdata : n.data = .Regular bytes ∨ n.data = .Symlink bytes) :
    (bytes.length ≤ offset → n.read offset bufLen = .ok (0, [])) ∧
    (offset < bytes.length →
      n.read offset bufLen =
        .ok (min bufLen (bytes.length - offset),
             (bytes.drop offset).take (min bufLen (bytes.length - offset)))) := by
  have hlen : min (offset + bufLen) bytes.length - offset
      = min bufLen (bytes.length - offset) := by omega
  rcases hdata with h | h <;>
      refine ⟨fun hle => ?_, fun hlt => ?_⟩ <;>
      simp only [VfsNode.read, h]
  · rw [if_pos hle]
  · rw [if_neg (by omega), hlen]
  · rw [if_pos hle]
  · rw [if_neg (by omega), hlen]

/-- Witness for C10 at a concrete node: a regular file holding bytes
`[10, 20, 30]`, read at offset 1 with a buffer of length 5, returns 2 bytes
`[20, 30]`; reading at offset 3 returns `Ok(0)`. -/
theorem vfsnode_read_eof_and_inrange_witness :
    (VfsNode.new_file "f" 7 0o644 |>.read 3 5) = .ok (0, []) ∧
    ({ VfsNode.new_file "f" 7 0o644 with data := .Regular [10, 20, 30] }.read 1 5)
      = .ok (2, [20, 30]) := by
  constructor
  · exact (vfsnode_read_eof_and_inrange _ [] 3 5 (Or.inl rfl)).1 (by decide)
  · have h := (vfsnode_read_eof_and_inrange
      { VfsNode.new_file "f" 7 0o644 with data := .Regular [10, 20, 30] }
      [10, 20, 30] 1 5 (Or.inl rfl)).2 (by decide)
    simpa using h

/-! ## kernel/scheduler/task.rs : task states, priorities, the POSIX PCB -/

/-- Rust `TaskState` from `src/kernel/scheduler/task.rs`. -/
inductive TaskState where
  | Ready
  | Running
  | Blocked
  | Sleeping
  | Zombie
  | Stopped
deriving DecidableEq, Repr

/-- Rust `TaskPriority` from `src/kernel/scheduler/task.rs`. -/
inductive TaskPriority where
  | Idle
  | Low
  | Normal
  | High
  | RealTime
deriving DecidableEq, Repr

/-- The `as usize` discriminant of `TaskPriority` (Idle=0 … RealTime=4). -/
def TaskPriority.index : TaskPriority → Nat
  | .Idle => 0
  | .Low => 1
  | .Normal => 2
  | .High => 3
  | .RealTime => 4

/-- Rust `Task` from `src/kernel/scheduler/task.rs`.  The saved CPU context, the
kernel-stack pointer and the fd table are raw-memory artefacts not touched
by any verified property; they are omitted from the embedding.  The `u64`
signal bitmasks are `Nat` values kept below `2^64`. -/
structure Task where
  pid : Nat
  ppid : Option Nat
  pgid : Nat
  sid : Nat
  name : String
  state : TaskState
  priority : TaskPriority
  exit_code : Option Int
  children : List Nat
  uid : Nat
  gid : Nat
  euid : Nat
  egid : Nat
  umask : Nat
  cwd : String
  next_fd : Int
  signal_mask : Nat
  pending_signals : Nat
  cpu_time : Nat
  start_time : Nat
deriving DecidableEq, Repr

/-- Rust `Task::new` from `src/kernel/scheduler/task.rs`; `ticks` stands for the
PIT tick counter the source reads for `start_time`. -/
def Task.new (pid : Nat) (name : String) (ticks : Nat) (is_kernel : Bool) :
    Task :=
  { pid := pid
    ppid := none
    pgid := pid
    sid := pid
    name := name
    state := .Ready
    priority := .Normal
    exit_code := none
    children := []
    uid := if is_kernel then 0 else 1000
    gid := if is_kernel then 0 else 1000
    euid := if is_kernel then 0 else 1000
    egid := if is_kernel then 0 else 1000
    umask := 0o022
    cwd := "/"
    next_fd := 3
    signal_mask := 0
    pending_signals := 0
    cpu_time := 0
    start_time := ticks }

/-- Rust `Task::exit` from `src/kernel/scheduler/task.rs`. -/
def Task.exit (t : Task) (code : Int) : Task :=
  { t with exit_code := some code, state := .Zombie }

/-- Rust `Task::send_signal` from `src/kernel/scheduler/task.rs`. -/
def Task.send_signal (t : Task) (signal : Nat) : Task :=
  if signal < 64 then
    { t with pending_signals := t.pending_signals ||| (1 <<< signal) }
  else t

/-- Rust `Task::clear_signal` from `src/kernel/scheduler/task.rs`; the `u64`
complement `!(1 << signal)` is the xor of the all-ones 64-bit word with the
signal bit. -/
def Task.clear_signal (t : Task) (signal : Nat) : Task :=
  if signal < 64 then
    { t with pending_signals :=
        t.pending_signals &&& ((2 ^ 64 - 1) ^^^ (1 <<< signal)) }
  else t

/-- Rust `Task::block_signal` from `src/kernel/scheduler/task.rs`. -/
def Task.block_signal (t : Task) (signal : Nat) : Task :=
  if signal < 64 then
    { t with signal_mask := t.signal_mask ||| (1 <<< signal) }
  else t

/-- Rust `Task::unblock_signal` from `src/kernel/scheduler/task.rs`. -/
def Task.unblock_signal (t : Task) (signal : Nat) : Task :=
  if signal < 64 then
    { t with signal_mask :=
        t.signal_mask &&& ((2 ^ 64 - 1) ^^^ (1 <<< signal)) }
  else t

/-- Rust `SIGKILL` from `src/kernel/scheduler/task.rs`. -/
def SIGKILL : Nat := 9

/-- Rust `SIGSTOP` from `src/kernel/scheduler/task.rs`. -/
def SIGSTOP : Nat := 19

/-! ## Claim C7 : SIGKILL / SIGSTOP and the blocked-signal mask -/

/-- C7 (code bug): the claim states that the SIGKILL (9) and SIGSTOP (19)
bits of a task's blocked-signal mask stay 0 under every sequence of signal
operations.  `Task::block_signal` refutes this at the very first step: on a
fresh task, `block_signal(SIGKILL)` sets bit 9 of `signal_mask` and
`block_signal(SIGSTOP)` sets bit 19, because the guard `signal < 64` is the
only check in the source.  This contradicts the source's own comments on
`SIGKILL`/`SIGSTOP` ("Cannot be caught/blocked") and the spec's mask
invariant. -/
theorem block_signal_masks_sigkill_sigstop :
    ((Task.new 1 "init" 0 true).block_signal SIGKILL).signal_mask.testBit 9
      = true ∧
    ((Task.new 1 "init" 0 true).block_signal SIGSTOP).signal_mask.testBit 19
      = true := by
  constructor
  · show Nat.testBit (Nat.lor 0 (1 <<< 9)) 9 = true
    decide
  · show Nat.testBit (Nat.lor 0 (1 <<< 19)) 19 = true
    decide

/-! ## kernel/scheduler/scheduler.rs : the scheduler -/

/-- Mutate the first task in the list carrying `pid`, exactly as
`get_task_mut` (an `iter_mut().find`) followed by a field update does. -/
def updateFirstTask (ts : List Task) (pid : Nat) (f : Task → Task) :
    List Task :=
  match ts with
  | [] => []
  | t :: rest =>
      if t.pid = pid then f t :: rest else t :: updateFirstTask rest pid f

/-- Rust `Scheduler` from `src/kernel/scheduler/scheduler.rs`.  The `[VecDeque;
5]` of ready queues is a list of five FIFO pid lists (front = head). -/
structure Scheduler where
  tasks : List Task
  ready_queue : List (List Nat)
  current_pid : Option Nat
  next_pid : Nat
  idle_pid : Option Nat
  ticks : Nat
  time_slice : Nat
  preemption_enabled : Bool
deriving DecidableEq, Repr

/-- Rust `Scheduler::get_task` from `src/kernel/scheduler/scheduler.rs`. -/
def Scheduler.get_task (s : Scheduler) (pid : Nat) : Option Task :=
  s.tasks.find? (fun t => t.pid = pid)

/-- Rust `Scheduler::current` from `src/kernel/scheduler/scheduler.rs`. -/
def Scheduler.current (s : Scheduler) : Option Task :=
  s.current_pid.bind s.get_task

/-- Rust `ready_queue[i].push_back(pid)` on the queue list. -/
def pushBackAt (qs : List (List Nat)) (i : Nat) (pid : Nat) :
    List (List Nat) :=
  qs.set i (qs.getD i [] ++ [pid])

/-- Rust `ready_queue[i].pop_front()` scanning from priority `i` down to 0, as
the loop `for priority in (0..5).rev()` in `select_next` does. -/
def popPriorityFrom (qs : List (List Nat)) : Nat → Option (Nat × List (List Nat))
  | 0 =>
      match qs.getD 0 [] with
      | [] => none
      | p :: rest => some (p, qs.set 0 rest)
  | i + 1 =>
      match qs.getD (i + 1) [] with
      | [] => popPriorityFrom qs i
      | p :: rest => some (p, qs.set (i + 1) rest)

/-- Rust `Scheduler::select_next` from `src/kernel/scheduler/scheduler.rs`:
scan the priority queues from RealTime (4) down to Idle (0), popping the
first pid; fall back to the registered idle task when all are empty. -/
def Scheduler.select_next (s : Scheduler) : Option Nat × Scheduler :=
  match popPriorityFrom s.ready_queue 4 with
  | some (pid, qs) => (some pid, { s with ready_queue := qs })
  | none => (s.idle_pid, s)

/-- Rust `Scheduler::switch_to` from `src/kernel/scheduler/scheduler.rs`. -/
def Scheduler.switch_to (s : Scheduler) (next_pid : Nat) : Scheduler :=
  { s with
    current_pid := some next_pid
    tasks := updateFirstTask s.tasks next_pid
      (fun t => { t with state := .Running, cpu_time := t.cpu_time + 1 }) }

/-- The re-enqueue step of `Scheduler::schedule` (the
`if let Some(current_pid) = self.current_pid` block): a current task in
state `Running` is set `Ready` and pushed at the tail of its priority
queue. -/
def Scheduler.requeue_current (s : Scheduler) : Scheduler :=
  match s.current_pid with
  | none => s
  | some cp =>
      match s.get_task cp with
      | none => s
      | some t =>
          if t.state = .Running then
            { s with
              tasks := updateFirstTask s.tasks cp
                (fun u => { u with state := .Ready })
              ready_queue := pushBackAt s.ready_queue t.priority.index cp }
          else s

/-- Rust `Scheduler::schedule` from `src/kernel/scheduler/scheduler.rs`: bump
the tick counter, return unless the counter is a multiple of `time_slice`,
re-enqueue the running task, then switch to the task chosen by
`select_next` — but only when it differs from `current_pid`. -/
def Scheduler.schedule (s : Scheduler) : Scheduler :=
  if ¬ s.preemption_enabled then s
  else if (s.ticks + 1) % s.time_slice ≠ 0 then { s with ticks := s.ticks + 1 }
  else
    match ({ s with ticks := s.ticks + 1 }).requeue_current.select_next with
    | (some next_pid, s3) =>
        if some next_pid ≠ s3.current_pid then s3.switch_to next_pid else s3
    | (none, s3) => s3

/-! ## kernel/sys/syscalls.rs : `sys_wait4` -/

/-- Rust `sys_wait4` from `src/kernel/sys/syscalls.rs`.  The `status` out
pointer is modelled by `status_nonnull`; the middle component of the
result is the value written through it (`none` when the pointer is null or
nothing is written).  With `pid = -1` the source inspects only
`children.first()`; a reaped zombie is removed from `tasks` by `retain`
but its pid is left in the caller's `children`. -/
def sys_wait4 (s : Scheduler) (pid : Int) (status_nonnull : Bool) :
    Int × Option Int × Scheduler :=
  let target : Option (Option Nat) :=
    if pid = -1 then
      some (s.current.bind (fun t => t.children.head?))
    else if pid > 0 then some (some pid.toNat)
    else none
  match target with
  | none => (-22, none, s)
  | some none => (-10, none, s)
  | some (some tpid) =>
      match s.get_task tpid with
      | some child =>
          if child.state = .Zombie then
            let code := child.exit_code.getD 0
            (Int.ofNat tpid,
             if status_nonnull then some code else none,
             { s with tasks := s.tasks.filter (fun t => t.pid ≠ tpid) })
          else (-10, none, s)
      | none => (-10, none, s)

/-! ## Claim C1 : `wait4(-1)` and zombie children -/

/-- A parent (pid 1) with children `[2, 3]`: child 2 is `Ready`, child 3 is
a `Zombie` with exit code 7. -/
def wait4_parent : Task :=
  { Task.new 1 "init" 0 true with state := .Running, children := [2, 3] }

def wait4_child2 : Task :=
  { Task.new 2 "a" 0 true with ppid := some 1, state := .Ready }

def wait4_child3 : Task :=
  { Task.new 3 "b" 0 true with
      ppid := some 1, state := .Zombie, exit_code := some 7 }

/-- Scheduler state in which task 1 is current and its second child (pid 3)
is a zombie. -/
def wait4_state : Scheduler :=
  { tasks := [wait4_parent, wait4_child2, wait4_child3]
    ready_queue := [[], [], [2], [], []]
    current_pid := some 1
    next_pid := 4
    idle_pid := none
    ticks := 0
    time_slice := 10
    preemption_enabled := true }

/-- The same parent with the zombie as its only (hence first) child. -/
def wait4_state_only_zombie : Scheduler :=
  { wait4_state with
      tasks := [{ wait4_parent with children := [3] }, wait4_child3] }

/-- C1 (code bug): the claim says `wait4(-1)` returns a zombie child
whenever one exists and removes it from the task table *and* from the
caller's `children` list, returning `-ECHILD` exactly when no child
matches.  The source checks only `children.first()`: in `wait4_state` the
zombie child 3 exists (and 3 is among the caller's children) yet the call
returns `-10` (ECHILD) because the first child 2 is not a zombie.  And in
the reaping case (`wait4_state_only_zombie`) the zombie's pid 3 is removed
from `tasks` but stays in the parent's `children`. -/
theorem sys_wait4_first_child_only_and_children_kept :
    (wait4_state.get_task 3).map Task.state = some .Zombie ∧
    3 ∈ wait4_parent.children ∧
    sys_wait4 wait4_state (-1) true = (-10, none, wait4_state) ∧
    (sys_wait4 wait4_state_only_zombie (-1) true).1 = 3 ∧
    (sys_wait4 wait4_state_only_zombie (-1) true).2.1 = some 7 ∧
    ((sys_wait4 wait4_state_only_zombie (-1) true).2.2.get_task 3 = none ∧
     ((sys_wait4 wait4_state_only_zombie (-1) true).2.2.get_task 1).map
        Task.children = some [3]) := by
  refine ⟨rfl, by decide, rfl, rfl, rfl, rfl, rfl⟩

/-! ## Claim C2 : the tick path of `Scheduler::schedule` -/

lemma getD_set_self {α : Type} (l : List α) (i : Nat) (x d : α)
    (h : i < l.length) : (l.set i x).getD i d = x := by
  induction l generalizing i with
  | nil => simp at h
  | cons a as ih =>
      cases i with
      | zero => simp [List.getD]
      | succ j =>
          simp only [List.set, List.getD, List.getElem?_cons_succ]
          exact ih j (by simpa using h)

lemma updateFirstTask_find_self (ts : List Task) (p : Nat) (f : Task → Task)
    (t : Task) (hf : (f t).pid = t.pid)
    (h : ts.find? (fun u => u.pid = p) = some t) :
    (updateFirstTask ts p f).find? (fun u => u.pid = p) = some (f t) := by
  induction ts with
  | nil => simp at h
  | cons u rest ih =>
      by_cases hu : u.pid = p
      · rw [List.find?_cons_of_pos _ (by simpa using hu)] at h
        injection h with h
        subst h
        simp only [updateFirstTask, if_pos hu]
        exact List.find?_cons_of_pos _ (by simpa [hf] using hu)
      · rw [List.find?_cons_of_neg _ (by simpa using hu)] at h
        simp only [updateFirstTask, if_neg hu]
        rw [List.find?_cons_of_neg _ (by simpa using hu)]
        exact ih h

lemma select_next_preserves (s : Scheduler) (r : Option Nat) (s' : Scheduler)
    (h : s.select_next = (r, s')) :
    s'.current_pid = s.current_pid ∧ s'.tasks = s.tasks := by
  unfold Scheduler.select_next at h
  rcases hp : popPriorityFrom s.ready_queue 4 with _ | ⟨pid, qs⟩ <;>
      rw [hp] at h <;> injection h with h1 h2 <;> subst h2 <;> exact ⟨rfl, rfl⟩

/-- Counterexample to C2 as stated: a single `Running` task (pid 1, Normal
priority) with all ready queues empty, at the tick before a `time_slice`
boundary.  On `schedule()` the task is re-enqueued and `select_next`
returns it again, but since it equals `current_pid` the source skips
`switch_to`: the task ends in state `Ready` with `cpu_time` still 0, not
`Running` with `cpu_time` 1 as the claim requires. -/
def sched_one : Scheduler :=
  { tasks := [{ Task.new 1 "init" 0 true with state := .Running }]
    ready_queue := [[], [], [], [], []]
    current_pid := some 1
    next_pid := 2
    idle_pid := none
    ticks := 9
    time_slice := 10
    preemption_enabled := true }

theorem schedule_same_task_stays_ready :
    sched_one.preemption_enabled = true ∧
    (sched_one.ticks + 1) % sched_one.time_slice = 0 ∧
    (sched_one.get_task 1).map Task.state = some .Running ∧
    (({ sched_one with ticks := sched_one.ticks + 1 }).requeue_current.select_next).1
      = some 1 ∧
    (sched_one.schedule.get_task 1).map (fun t => (t.state, t.cpu_time))
      = some (.Ready, 0) ∧
    some ((TaskState.Ready : TaskState), (0 : Nat))
      ≠ some (TaskState.Running, 1) := by
  exact ⟨rfl, by decide, rfl, rfl, rfl, by decide⟩

/-- C2 as amended: with preemption enabled, on a tick that reaches a
`time_slice` boundary, a current task in state `Running` is re-enqueued at
the tail of its priority queue with state `Ready`; the task then selected
by `select_next` ends with state `Running` and `cpu_time` incremented by
one **only when it differs from the current task** — when `select_next`
returns the current task itself, `schedule` skips `switch_to` and the task
is left in state `Ready` with `cpu_time` unchanged. -/
theorem schedule_tick_behaviour
    (s : Scheduler) (cp : Nat) (t : Task) (n : Nat) (s3 : Scheduler)
    (hpre : s.preemption_enabled = true)
    (hq : s.ready_queue.length = 5)
    (hslice : (s.ticks + 1) % s.time_slice = 0)
    (hcp : s.current_pid = some cp)
    (ht : s.get_task cp = some t)
    (hrun : t.state = .Running)
    (hsel : (({ s with ticks := s.ticks + 1 }).requeue_current).select_next
      = (some n, s3)) :
    (({ s with ticks := s.ticks + 1 }).requeue_current).get_task cp
        = some { t with state := .Ready } ∧
    (({ s with ticks := s.ticks + 1 }).requeue_current).ready_queue.getD
        t.priority.index []
      = s.ready_queue.getD t.priority.index [] ++ [cp] ∧
    (n ≠ cp → ∀ tn, s3.get_task n = some tn →
      s.schedule.get_task n
        = some { tn with state := .Running, cpu_time := tn.cpu_time + 1 }) ∧
    (n = cp →
      s.schedule.get_task cp = some { t with state := .Ready } ∧
      s.schedule = s3) := by
  have hidx : t.priority.index < 5 := by cases t.priority <;> simp [TaskPriority.index]
  have htfind : s.tasks.find? (fun u => u.pid = cp) = some t := ht
  have hreq : ({ s with ticks := s.ticks + 1 }).requeue_current
      = { s with
            ticks := s.ticks + 1
            tasks := updateFirstTask s.tasks cp (fun u => { u with state := .Ready })
            ready_queue := pushBackAt s.ready_queue t.priority.index cp } := by
    simp only [Scheduler.requeue_current, Scheduler.get_task, hcp, htfind]
    rw [if_pos hrun]
  have hgt : (({ s with ticks := s.ticks + 1 }).requeue_current).get_task cp
      = some { t with state := .Ready } := by
    rw [hreq]
    exact updateFirstTask_find_self s.tasks cp _ t rfl ht
  have hs3 := select_next_preserves _ _ _ hsel
  have hs3cp : s3.current_pid = some cp := by
    rw [hs3.1, hreq]; exact hcp
  have hs3tasks : s3.tasks
      = updateFirstTask s.tasks cp (fun u => { u with state := .Ready }) := by
    rw [hs3.2, hreq]
  have hsched : s.schedule
      = if some n ≠ s3.current_pid then s3.switch_to n else s3 := by
    unfold Scheduler.schedule
    rw [if_neg (by simp [hpre]), if_neg (by simpa using hslice), hsel]
  refine ⟨hgt, ?_, ?_, ?_⟩
  · rw [hreq]
    show (pushBackAt s.ready_queue t.priority.index cp).getD t.priority.index []
      = s.ready_queue.getD t.priority.index [] ++ [cp]
    unfold pushBackAt
    exact getD_set_self _ _ _ _ (by omega)
  · intro hne tn htn
    have : s.schedule = s3.switch_to n := by
      rw [hsched, if_pos (by simp [hs3cp]; exact hne)]
    rw [this]
    show (updateFirstTask s3.tasks n _).find? (fun u => u.pid = n)
      = some { tn with state := .Running, cpu_time := tn.cpu_time + 1 }
    exact updateFirstTask_find_self s3.tasks n _ tn rfl htn
  · intro heq
    subst heq
    have hnone : s.schedule = s3 := by
      rw [hsched, if_neg (by simp [hs3cp])]
    constructor
    · rw [hnone]
      show s3.tasks.find? (fun u => u.pid = n) = some { t with state := .Ready }
      rw [hs3tasks]
      exact updateFirstTask_find_self s.tasks n _ t rfl ht
    · exact hnone

/-- Concrete two-task scheduler for the C2 witness: pid 1 is current and
`Running`, pid 2 waits in the Normal queue. -/
def sched_two_t2 : Task := { Task.new 2 "w" 0 true with state := .Ready }

def sched_two : Scheduler :=
  { tasks := [{ Task.new 1 "init" 0 true with state := .Running }, sched_two_t2]
    ready_queue := [[], [], [2], [], []]
    current_pid := some 1
    next_pid := 3
    idle_pid := none
    ticks := 9
    time_slice := 10
    preemption_enabled := true }

def sched_two_s3 : Scheduler :=
  ((({ sched_two with ticks := sched_two.ticks + 1 }).requeue_current).select_next).2

/-- Witness for C2: in `sched_two`, the boundary tick selects pid 2, which
ends `Running` with `cpu_time` bumped from 0 to 1. -/
theorem schedule_tick_behaviour_witness :
    sched_two.schedule.get_task 2
      = some { sched_two_t2 with state := .Running,
                                 cpu_time := sched_two_t2.cpu_time + 1 } := by
  have h := schedule_tick_behaviour sched_two 1
    ({ Task.new 1 "init" 0 true with state := .Running }) 2 sched_two_s3
    rfl rfl (by decide) rfl rfl rfl rfl
  exact h.2.2.1 (by decide) sched_two_t2 rfl

/-! ## hal/memory/frame_allocator.rs : the bitmap frame allocator -/

/-- Bit-count loop with the number of remaining bit positions as fuel. -/
def countOnesGo : Nat → Nat → Nat
  | 0, _ => 0
  | fuel + 1, n => n % 2 + countOnesGo fuel (n / 2)

/-- Population count of a 64-bit machine word (`u64::count_ones`); agrees
with the hardware popcount on every value below `2^64`. -/
def countOnes (n : Nat) : Nat :=
  countOnesGo 64 n

/-- Rust `PhysFrame::containing_address(PhysAddr::new(x)).start_address()`:
align the address down to its 4 KiB frame start. -/
def physFrameStart (addr : Nat) : Nat :=
  (addr / 4096) * 4096

/-- Rust `BitmapFrameAllocator` from `src/hal/memory/frame_allocator.rs`: the
bitmap is a vector of `u64` words (bit set = frame used). -/
structure BitmapFrameAllocator where
  bitmap : List Nat
  base_frame : Nat
  total_frames : Nat
  next_free : Nat
deriving DecidableEq, Repr

/-- Rust `BitmapFrameAllocator::mark_free` from
`src/hal/memory/frame_allocator.rs`, taking the frame's start address; the
`u64` complement `!(1 << bit)` is the xor with the all-ones word. -/
def BitmapFrameAllocator.mark_free (a : BitmapFrameAllocator)
    (frameStart : Nat) : BitmapFrameAllocator :=
  let frame_number := frameStart / 4096 - a.base_frame
  if frame_number < a.total_frames then
    { a with
      bitmap := a.bitmap.set (frame_number / 64)
        (a.bitmap.getD (frame_number / 64) 0 &&&
          ((2 ^ 64 - 1) ^^^ (1 <<< (frame_number % 64))))
      next_free :=
        if frame_number < a.next_free then frame_number else a.next_free }
  else a

/-- Rust `BitmapFrameAllocator::used_frames`: total popcount of the bitmap. -/
def BitmapFrameAllocator.used_frames (a : BitmapFrameAllocator) : Nat :=
  (a.bitmap.map countOnes).sum

/-- Scan loop body with the number of remaining indices as fuel. -/
def scanFreeGo (bitmap : List Nat) : Nat → Nat → Option Nat
  | 0, _ => none
  | fuel + 1, lo =>
      if bitmap.getD (lo / 64) 0 &&& (1 <<< (lo % 64)) = 0 then some lo
      else scanFreeGo bitmap fuel (lo + 1)

/-- One of the two scan loops of `find_free_frame`: the first index in
`[lo, hi)` whose bitmap bit is clear. -/
def scanFree (bitmap : List Nat) (lo hi : Nat) : Option Nat :=
  scanFreeGo bitmap (hi - lo) lo

/-- Rust `BitmapFrameAllocator::find_free_frame` from
`src/hal/memory/frame_allocator.rs`: scan `next_free..total_frames`, then
`0..next_free`. -/
def BitmapFrameAllocator.find_free_frame (a : BitmapFrameAllocator) :
    Option Nat :=
  match scanFree a.bitmap a.next_free a.total_frames with
  | some i => some i
  | none => scanFree a.bitmap 0 a.next_free

/-- Rust `allocate_frame` for `BitmapFrameAllocator` from
`src/hal/memory/frame_allocator.rs`.  The result is the start address of
the returned `PhysFrame` together with the new allocator state.  Note the
source computes `addr = base_frame + frame_idx * 4096` (a frame *number*
plus a byte offset) and then multiplies by 4096 again when building the
`PhysAddr`. -/
def BitmapFrameAllocator.allocate_frame (a : BitmapFrameAllocator) :
    Option Nat × BitmapFrameAllocator :=
  match a.find_free_frame with
  | some frame_idx =>
      (some (physFrameStart ((a.base_frame + frame_idx * 4096) * 4096)),
       { a with
         bitmap := a.bitmap.set (frame_idx / 64)
           (a.bitmap.getD (frame_idx / 64) 0 ||| (1 <<< (frame_idx % 64)))
         next_free := frame_idx + 1 })
  | none => (none, a)

/-- Rust `deallocate_frame` for `BitmapFrameAllocator` from
`src/hal/memory/frame_allocator.rs`: delegates to `mark_free`. -/
def BitmapFrameAllocator.deallocate_frame (a : BitmapFrameAllocator)
    (frameStart : Nat) : BitmapFrameAllocator :=
  a.mark_free frameStart

/-! ## Claim C3 : allocate / deallocate round trip -/

/-- Allocator over two frames at base 0 with frame 0 already used, so the
scan returns index 1. -/
def fa_ex : BitmapFrameAllocator :=
  { bitmap := [1], base_frame := 0, total_frames := 2, next_free := 0 }

/-- C3 (code bug): allocate followed by deallocate of the returned frame
does **not** restore `used_frames`.  On `fa_ex`, `allocate_frame` picks
index 1 and marks it used, but returns the frame at address
`(0 + 1*4096)*4096 = 16777216` — 4096 times too large, because the source
multiplies the frame index by 4096 twice.  `deallocate_frame` of that frame
computes frame number 4096, outside `total_frames = 2`, and clears nothing:
`used_frames` stays 2 instead of returning to 1.  Deallocating the frame
the index actually names (address 4096) would restore the count, which
shows `mark_free` itself implements the spec. -/
theorem allocate_deallocate_no_roundtrip :
    fa_ex.used_frames = 1 ∧
    fa_ex.allocate_frame.1 = some 16777216 ∧
    fa_ex.allocate_frame.2.bitmap = [3] ∧
    fa_ex.allocate_frame.2.used_frames = 2 ∧
    (fa_ex.allocate_frame.2.deallocate_frame 16777216).used_frames = 2 ∧
    ¬ ((fa_ex.allocate_frame.2.deallocate_frame 16777216).used_frames
        = fa_ex.used_frames) ∧
    (fa_ex.allocate_frame.2.deallocate_frame 4096).used_frames = 1 := by
  refine ⟨rfl, rfl, rfl, rfl, ?_, ?_, ?_⟩ <;> decide

/-! ## fs/fat32/fat.rs : the FAT table and cluster chains -/

/-- Rust `FAT32_EOC` from `src/fs/fat32/fat.rs`. -/
def FAT32_EOC : Nat := 0x0FFFFFF8

/-- Rust `FAT32_BAD` from `src/fs/fat32/fat.rs`. -/
def FAT32_BAD : Nat := 0x0FFFFFF7

/-- Rust `FatTable` from `src/fs/fat32/fat.rs`. -/
structure FatTable where
  entries : List Nat
  dirty : Bool
deriving DecidableEq, Repr

/-- Rust `FatTable::get` from `src/fs/fat32/fat.rs`: out-of-range clusters read
as `FAT32_BAD`. -/
def FatTable.get (f : FatTable) (cluster : Nat) : Nat :=
  if f.entries.length ≤ cluster then FAT32_BAD
  else f.entries.getD cluster 0

/-- The loop of `FatTable::get_chain`, with the remaining number of
permitted pushes as fuel: the source breaks out of the loop once
`chain.len() > entries.len()`, i.e. after `entries.len() + 1` pushes. -/
def getChainGo (f : FatTable) : Nat → Nat → List Nat
  | 0, _ => []
  | fuel + 1, current =>
      if 2 ≤ current ∧ current < FAT32_BAD then
        current :: getChainGo f fuel (f.get current)
      else []

/-- Rust `FatTable::get_chain` from `src/fs/fat32/fat.rs`: follow
`current = FAT[current]` while `2 <= current < FAT32_BAD`, breaking once
the chain holds `entries.len() + 1` elements. -/
def FatTable.get_chain (f : FatTable) (start_cluster : Nat) : List Nat :=
  getChainGo f (f.entries.length + 1) start_cluster

/-! ## Claim C5 : cluster chains and the cycle cap -/

/-- Counterexample to C5 as stated: on the 3-entry FAT `[0, 0, 2]`, cluster
2 points at itself, and `get_chain(2)` returns `[2, 2, 2, 2]` — 4 elements,
which *exceeds* the FAT size 3.  The break condition
`chain.len() > entries.len()` fires only after the `(n+1)`-th push, so on a
cyclic FAT the chain reaches length `n + 1`, not `n`. -/
theorem get_chain_length_exceeds_fat_size :
    FatTable.get_chain ⟨[0, 0, 2], false⟩ 2 = [2, 2, 2, 2] ∧
    ¬ ((FatTable.get_chain ⟨[0, 0, 2], false⟩ 2).length ≤ 3) := by
  refine ⟨?_, ?_⟩ <;> decide

lemma getChainGo_spec (f : FatTable) : ∀ (fuel start : Nat),
    (getChainGo f fuel start).length ≤ fuel ∧
    (∀ i, i < (getChainGo f fuel start).length →
      (getChainGo f fuel start).getD i 0 = f.get^[i] start ∧
      2 ≤ f.get^[i] start ∧ f.get^[i] start < FAT32_BAD) ∧
    ((getChainGo f fuel start).length < fuel →
      ¬ (2 ≤ f.get^[(getChainGo f fuel start).length] start ∧
         f.get^[(getChainGo f fuel start).length] start < FAT32_BAD)) := by
  intro fuel
  induction fuel with
  | zero =>
      intro start
      refine ⟨Nat.le_refl 0, ?_, ?_⟩
      · intro i hi; simp [getChainGo] at hi
      · intro h; omega
  | succ fuel ih =>
      intro start
      by_cases hc : 2 ≤ start ∧ start < FAT32_BAD
      · have hgo : getChainGo f (fuel + 1) start
            = start :: getChainGo f fuel (f.get start) := by
          simp [getChainGo, hc]
        obtain ⟨ihlen, ihelt, ihmax⟩ := ih (f.get start)
        refine ⟨?_, ?_, ?_⟩
        · rw [hgo]; simpa using Nat.succ_le_succ ihlen
        · intro i hi
          rw [hgo] at hi ⊢
          cases i with
          | zero => simpa [Function.iterate_zero] using hc
          | succ j =>
              have hj := ihelt j (by simpa using hi)
              simpa [Function.iterate_succ_apply, List.getD_cons_succ] using hj
        · intro hlt
          rw [hgo] at hlt ⊢
          have := ihmax (by simpa using hlt)
          simpa [Function.iterate_succ_apply, List.length_cons] using this
      · have hgo : getChainGo f (fuel + 1) start = [] := by
          simp [getChainGo, hc]
        refine ⟨by rw [hgo]; simp, ?_, ?_⟩
        · intro i hi; rw [hgo] at hi; simp at hi
        · intro _
          rw [hgo]
          simpa [Function.iterate_zero] using hc

/-- C5 as amended: `get_chain(c)` is the orbit `c, FAT[c], FAT[FAT[c]], …`
truncated at the first entry outside `[2, FAT32_BAD)` (free/reserved, bad,
or end-of-chain values all stop the walk) or once the chain holds
`entries.len() + 1` elements — so its length never exceeds the FAT size
**plus one** (not the FAT size itself), even when the FAT contains a
cycle; whenever the cap was not hit, the chain is maximal: the next orbit
value fails the continuation test. -/
theorem get_chain_orbit_and_cap (f : FatTable) (start : Nat) :
    (f.get_chain start).length ≤ f.entries.length + 1 ∧
    (∀ i, i < (f.get_chain start).length →
      (f.get_chain start).getD i 0 = f.get^[i] start ∧
      2 ≤ f.get^[i] start ∧ f.get^[i] start < FAT32_BAD) ∧
    ((f.get_chain start).length ≤ f.entries.length →
      ¬ (2 ≤ f.get^[(f.get_chain start).length] start ∧
         f.get^[(f.get_chain start).length] start < FAT32_BAD)) := by
  have h := getChainGo_spec f (f.entries.length + 1) start
  simp only [FatTable.get_chain]
  exact ⟨h.1, h.2.1, fun hle => h.2.2 (by omega)⟩

/-- Witness for C5 on the FAT `[0, 0, 3, EOC]`: `get_chain(2) = [2, 3]`;
its second element is the first orbit iterate, and the orbit value after
the chain (`FAT[3] = EOC`) fails the continuation test. -/
theorem get_chain_orbit_and_cap_witness :
    (FatTable.get_chain ⟨[0, 0, 3, 0x0FFFFFF8], false⟩ 2).getD 1 0
      = (FatTable.get ⟨[0, 0, 3, 0x0FFFFFF8], false⟩)^[1] 2 ∧
    ¬ (2 ≤ (FatTable.get ⟨[0, 0, 3, 0x0FFFFFF8], false⟩)^[
          (FatTable.get_chain ⟨[0, 0, 3, 0x0FFFFFF8], false⟩ 2).length] 2 ∧
       (FatTable.get ⟨[0, 0, 3, 0x0FFFFFF8], false⟩)^[
          (FatTable.get_chain ⟨[0, 0, 3, 0x0FFFFFF8], false⟩ 2).length] 2
         < FAT32_BAD) := by
  refine ⟨((get_chain_orbit_and_cap ⟨[0, 0, 3, 0x0FFFFFF8], false⟩ 2).2.1 1
    (by decide)).1, (get_chain_orbit_and_cap ⟨[0, 0, 3, 0x0FFFFFF8], false⟩ 2).2.2
    (by decide)⟩

/-! ## fs/mount.rs : the mount table -/

/-- Rust `MountPoint` from `src/fs/mount.rs`; the shared `Arc<RwLock<dyn
Filesystem>>` handle is opaque to every verified property and modelled as
a numeric id. -/
structure MountPoint where
  path : String
  device : String
  fs_type : String
  flags : Nat
  filesystem : Nat
deriving DecidableEq, Repr

/-- Stable insertion into a list kept sorted by descending `path.length`
(a new element goes after existing entries of equal length, as Rust's
stable `sort_by` leaves the pushed-last element). -/
def insertByLenDesc (m : MountPoint) : List MountPoint → List MountPoint
  | [] => [m]
  | x :: xs =>
      if x.path.length < m.path.length then m :: x :: xs
      else x :: insertByLenDesc m xs

/-- Rust `table.sort_by(|a, b| b.path.len().cmp(&a.path.len()))` from
`src/fs/mount.rs`, as a stable insertion sort. -/
def sortByLenDesc : List MountPoint → List MountPoint
  | [] => []
  | x :: xs => insertByLenDesc x (sortByLenDesc xs)

/-- Rust `mount` from `src/fs/mount.rs`: refuse duplicate targets with `Busy`,
otherwise push the record and re-sort by descending target length. -/
def mount (table : List MountPoint) (source target fs_type : String)
    (flags filesystem : Nat) : Except FsError (List MountPoint) :=
  if table.any (fun m => m.path = target) then .error .Busy
  else .ok (sortByLenDesc (table ++ [⟨target, source, fs_type, flags, filesystem⟩]))

/-- Rust `Vec::remove` at the first position whose path matches. -/
def removeFirstMount : List MountPoint → String → List MountPoint
  | [], _ => []
  | m :: rest, target =>
      if m.path = target then rest else m :: removeFirstMount rest target

/-- Rust `umount` from `src/fs/mount.rs`: remove the first exact-match entry,
`NotFound` when no entry matches. -/
def umount (table : List MountPoint) (target : String) :
    Except FsError (List MountPoint) :=
  if table.any (fun m => m.path = target) then .ok (removeFirstMount table target)
  else .error .NotFound

/-- In-place flag update of the first matching entry. -/
def updateFirstMount : List MountPoint → String → Nat → List MountPoint
  | [], _, _ => []
  | m :: rest, target, flags =>
      if m.path = target then { m with flags := flags } :: rest
      else m :: updateFirstMount rest target flags

/-- Rust `remount` from `src/fs/mount.rs`: replace the flags of the first
matching entry, `NotFound` when no entry matches. -/
def remount (table : List MountPoint) (target : String) (flags : Nat) :
    Except FsError (List MountPoint) :=
  if table.any (fun m => m.path = target) then
    .ok (updateFirstMount table target flags)
  else .error .NotFound

/-- The spec's mount-table invariant: sorted by target path length in
descending order. -/
def MTSorted (t : List MountPoint) : Prop :=
  t.Pairwise (fun a b => b.path.length ≤ a.path.length)

/-- One mount-table operation, for stating the invariant over arbitrary
operation sequences. -/
inductive MountOp where
  | mount (source target fs_type : String) (flags filesystem : Nat)
  | umount (target : String)
  | remount (target : String) (flags : Nat)

/-- Apply one operation to the global table; a failing operation leaves the
table untouched, exactly as the early-return paths of the source do. -/
def applyMountOp (table : List MountPoint) (op : MountOp) : List MountPoint :=
  match op with
  | .mount src tgt ty fl fs =>
      match mount table src tgt ty fl fs with
      | .ok t => t
      | .error _ => table
  | .umount tgt =>
      match umount table tgt with
      | .ok t => t
      | .error _ => table
  | .remount tgt fl =>
      match remount table tgt fl with
      | .ok t => t
      | .error _ => table

/-! ## Claim C8 : duplicate targets and the sortedness invariant -/

lemma mem_insertByLenDesc {x m : MountPoint} {l : List MountPoint} :
    x ∈ insertByLenDesc m l ↔ x = m ∨ x ∈ l := by
  induction l with
  | nil => simp [insertByLenDesc]
  | cons a as ih =>
      simp only [insertByLenDesc]
      split
      · simp
      · simp only [List.mem_cons, ih]
        tauto

lemma sorted_insertByLenDesc (m : MountPoint) (l : List MountPoint)
    (h : MTSorted l) : MTSorted (insertByLenDesc m l) := by
  induction l with
  | nil => simp [insertByLenDesc, MTSorted]
  | cons a as ih =>
      rw [MTSorted, List.pairwise_cons] at h
      simp only [insertByLenDesc]
      split
      · rename_i hlt
        rw [MTSorted, List.pairwise_cons]
        refine ⟨?_, List.pairwise_cons.mpr h⟩
        intro y hy
        rcases List.mem_cons.mp hy with hy | hy
        · subst hy; omega
        · have := h.1 y hy; omega
      · rename_i hge
        rw [MTSorted, List.pairwise_cons]
        refine ⟨?_, ih h.2⟩
        intro y hy
        rcases mem_insertByLenDesc.mp hy with hy | hy
        · subst hy; omega
        · exact h.1 y hy

lemma sorted_sortByLenDesc (l : List MountPoint) : MTSorted (sortByLenDesc l) := by
  induction l with
  | nil => simp [sortByLenDesc, MTSorted]
  | cons a as ih => exact sorted_insertByLenDesc a (sortByLenDesc as) ih

lemma removeFirstMount_sublist (l : List MountPoint) (t : String) :
    (removeFirstMount l t).Sublist l := by
  induction l with
  | nil => simp [removeFirstMount]
  | cons m rest ih =>
      simp only [removeFirstMount]
      split
      · exact List.sublist_cons_self m rest
      · exact ih.cons₂ m

lemma updateFirstMount_map_len (l : List MountPoint) (t : String) (fl : Nat) :
    (updateFirstMount l t fl).map (fun m => m.path.length)
      = l.map (fun m => m.path.length) := by
  induction l with
  | nil => rfl
  | cons m rest ih =>
      simp only [updateFirstMount]
      split
      · simp
      · simp [ih]

lemma MTSorted_iff_map (l : List MountPoint) :
    MTSorted l ↔ (l.map (fun m => m.path.length)).Pairwise (fun a b => b ≤ a) := by
  rw [MTSorted, List.pairwise_map]

lemma applyMountOp_sorted (t : List MountPoint) (op : MountOp)
    (h : MTSorted t) : MTSorted (applyMountOp t op) := by
  cases op with
  | mount src tgt ty fl fs =>
      simp only [applyMountOp, mount]
      by_cases hc : (t.any fun m => decide (m.path = tgt)) = true
      · rw [if_pos hc]; exact h
      · rw [if_neg hc]; exact sorted_sortByLenDesc _
  | umount tgt =>
      simp only [applyMountOp, umount]
      by_cases hc : (t.any fun m => decide (m.path = tgt)) = true
      · rw [if_pos hc]
        exact List.Pairwise.sublist (removeFirstMount_sublist t tgt) h
      · rw [if_neg hc]; exact h
  | remount tgt fl =>
      simp only [applyMountOp, remount]
      by_cases hc : (t.any fun m => decide (m.path = tgt)) = true
      · rw [if_pos hc]
        show MTSorted (updateFirstMount t tgt fl)
        rw [MTSorted_iff_map, updateFirstMount_map_len]
        exact (MTSorted_iff_map t).mp h
      · rw [if_neg hc]; exact h

lemma foldl_applyMountOp_sorted (ops : List MountOp) :
    ∀ t, MTSorted t → MTSorted (ops.foldl applyMountOp t) := by
  induction ops with
  | nil => intro t h; exact h
  | cons op ops ih =>
      intro t h
      exact ih _ (applyMountOp_sorted t op h)

/-- C8: `mount` with a target already present in the table fails with
`Busy` (leaving the table unchanged, as the source returns before any
mutation), otherwise it appends the record and re-sorts; and after every
sequence of `mount` / `umount` / `remount` operations starting from the
empty table, the table is sorted by target path length in descending
order. -/
theorem mount_busy_and_table_sorted :
    (∀ (table : List MountPoint) (source target fs_type : String)
       (flags filesystem : Nat),
      table.any (fun m => m.path = target) = true →
        mount table source target fs_type flags filesystem
          = .error .Busy) ∧
    (∀ ops : List MountOp, MTSorted (ops.foldl applyMountOp [])) := by
  constructor
  · intro table source target fs_type flags filesystem hdup
    simp [mount, hdup]
  · intro ops
    exact foldl_applyMountOp_sorted ops [] (by simp [MTSorted])

/-- Witness for C8: mounting at the already-mounted target `/mnt` fails
with `Busy`. -/
theorem mount_busy_and_table_sorted_witness :
    mount [⟨"/mnt", "sda1", "ext4", 0, 0⟩] "sdb1" "/mnt" "fat32" 0 1
      = .error .Busy := by
  exact mount_busy_and_table_sorted.1 [⟨"/mnt", "sda1", "ext4", 0, 0⟩]
    "sdb1" "/mnt" "fat32" 0 1 rfl

/-! ## fs/ext4/ext4.rs : reading file data through the direct block map -/

/-- Rust `Ext4Filesystem::read_block_data` from `src/fs/ext4/ext4.rs`: a
zero-initialised buffer of `block_size` bytes filled from the device; the
device is modelled as a map from block numbers to block contents. -/
def read_block_data (disk : Nat → List Nat) (block_size : Nat)
    (block_num : Nat) : List Nat :=
  (disk block_num).take block_size
    ++ List.replicate (block_size - (disk block_num).length) 0

/-- The loop of `Ext4Filesystem::read_block_map_data` from
`src/fs/ext4/ext4.rs`, recursing over the (at most 12) direct block
pointers: stop when `remaining` hits 0 or a pointer is 0, otherwise copy
`min remaining block_size` bytes of the pointed-to block. -/
def readBlockMapGo (disk : Nat → List Nat) (block_size : Nat) :
    List Nat → Nat → List Nat
  | [], _ => []
  | block_num :: rest, remaining =>
      if remaining = 0 then []
      else if block_num = 0 then []
      else
        (read_block_data disk block_size block_num).take (min remaining block_size)
          ++ readBlockMapGo disk block_size rest (remaining - min remaining block_size)

/-- Rust `Ext4Filesystem::read_block_map_data` from `src/fs/ext4/ext4.rs`:
`i_block` is the inode's 15-entry pointer array, of which the loop visits
indices `0..12`; `size` is the inode's byte size. -/
def read_block_map_data (disk : Nat → List Nat) (block_size : Nat)
    (i_block : List Nat) (size : Nat) : List Nat :=
  readBlockMapGo disk block_size (i_block.take 12) size

/-- Modelled from the spec's words, for comparison with the code: "the
concatenation of the contents of the blocks named by `inode.i_block[0..12]`,
truncated to `inode.size`". -/
def specBlockMapRead (disk : Nat → List Nat) (block_size : Nat)
    (i_block : List Nat) (size : Nat) : List Nat :=
  (List.flatten ((i_block.take 12).map (read_block_data disk block_size))).take size

/-! ## Claim C4 : block-map reads versus the concatenation of direct blocks -/

lemma read_block_data_length (disk : Nat → List Nat) (bs b : Nat) :
    (read_block_data disk bs b).length = bs := by
  simp only [read_block_data, List.length_append, List.length_take,
    List.length_replicate]
  omega

/-- Concrete sparse counterexample: block size 1024, `i_block` begins
`[5, 0, 3, …]`, file size 2049 (three blocks' worth). -/
def c4Disk : Nat → List Nat := fun b => List.replicate 1024 (b % 256)

def c4IBlock : List Nat := [5, 0, 3, 0, 0, 0, 0, 0, 0, 0, 0, 0, 0, 0, 0]

/-- Counterexample to C4 as stated: on an inode whose second direct block
pointer is 0 (a sparse file), the code stops at the first zero pointer and
returns only 1024 bytes, while the concatenation of the blocks named by
`i_block[0..12]` truncated to `size = 2049` has 2049 bytes. -/
theorem read_block_map_stops_at_zero_pointer :
    (read_block_map_data c4Disk 1024 c4IBlock 2049).length = 1024 ∧
    (specBlockMapRead c4Disk 1024 c4IBlock 2049).length = 2049 ∧
    read_block_map_data c4Disk 1024 c4IBlock 2049
      ≠ specBlockMapRead c4Disk 1024 c4IBlock 2049 := by
  have h1 : (read_block_map_data c4Disk 1024 c4IBlock 2049).length = 1024 := by
    show (readBlockMapGo c4Disk 1024 (c4IBlock.take 12) 2049).length = 1024
    have : c4IBlock.take 12 = [5, 0, 3, 0, 0, 0, 0, 0, 0, 0, 0, 0] := rfl
    rw [this]
    simp only [readBlockMapGo]
    norm_num
    simp [read_block_data_length]
  have h2 : (specBlockMapRead c4Disk 1024 c4IBlock 2049).length = 2049 := by
    simp only [specBlockMapRead, List.length_take, List.length_flatten]
    have : c4IBlock.take 12 = [5, 0, 3, 0, 0, 0, 0, 0, 0, 0, 0, 0] := rfl
    rw [this]
    simp [read_block_data_length]
  refine ⟨h1, h2, fun h => ?_⟩
  rw [h] at h1
  omega

lemma readBlockMapGo_nil_remaining (disk : Nat → List Nat) (bs : Nat)
    (l : List Nat) : readBlockMapGo disk bs l 0 = [] := by
  cases l <;> simp [readBlockMapGo]

lemma readBlockMapGo_eq_join (disk : Nat → List Nat) (bs : Nat) :
    ∀ (l : List Nat) (size : Nat), 0 < bs → size ≤ l.length * bs →
    (∀ j, j * bs < size → l.getD j 0 ≠ 0) →
    readBlockMapGo disk bs l size
      = (List.flatten (l.map (read_block_data disk bs))).take size := by
  intro l
  induction l with
  | nil => intro size _ _ _; simp [readBlockMapGo]
  | cons b rest ih =>
      intro size hbs hsz hnz
      by_cases h0 : size = 0
      · subst h0
        simp [readBlockMapGo_nil_remaining]
      · have hb : b ≠ 0 := by
          have := hnz 0 (by omega)
          simpa using this
        rw [List.map_cons, List.flatten_cons,
          List.take_append_eq_append_take, read_block_data_length]
        simp only [readBlockMapGo, if_neg h0, if_neg hb]
        by_cases hle : size ≤ bs
        · have hmin : min size bs = size := by omega
          rw [hmin, Nat.sub_self, readBlockMapGo_nil_remaining]
          have hsb : size - bs = 0 := by omega
          rw [hsb]
          simp
        · have hmin : min size bs = bs := by omega
          rw [hmin]
          have htk : (read_block_data disk bs b).take bs
              = read_block_data disk bs b := by
            apply List.take_of_length_le
            rw [read_block_data_length]
          have htk2 : (read_block_data disk bs b).take size
              = read_block_data disk bs b := by
            apply List.take_of_length_le
            rw [read_block_data_length]; omega
          rw [htk, htk2]
          congr 1
          apply ih (size - bs) hbs
          · have : (b :: rest).length * bs = rest.length * bs + bs := by
              simp [Nat.succ_mul]
            omega
          · intro j hj
            have := hnz (j + 1) (by
              have : (j + 1) * bs = j * bs + bs := by ring
              omega)
            simpa using this

/-- C4 as amended: for an inode read through the block-map path with
`size ≤ 12 * block_size`, the result equals the concatenation of the
blocks named by `i_block[0..12]` truncated to `size` **provided every
direct pointer the size makes the loop visit (index `j` with
`j * block_size < size`) is nonzero**; on a zero pointer the loop stops
early instead (see the counterexample). -/
theorem read_block_map_data_eq_spec (disk : Nat → List Nat)
    (block_size : Nat) (i_block : List Nat) (size : Nat)
    (hbs : 0 < block_size)
    (hlen : 12 ≤ i_block.length)
    (hsz : size ≤ 12 * block_size)
    (hnz : ∀ j, j * block_size < size → i_block.getD j 0 ≠ 0) :
    read_block_map_data disk block_size i_block size
      = specBlockMapRead disk block_size i_block size := by
  unfold read_block_map_data specBlockMapRead
  apply readBlockMapGo_eq_join disk block_size (i_block.take 12) size hbs
  · rw [List.length_take]
    have : min 12 i_block.length = 12 := by omega
    rw [this]
    omega
  · intro j hj
    have hj12 : j < 12 := by
      by_contra hge
      push_neg at hge
      have : 12 * block_size ≤ j * block_size := Nat.mul_le_mul_right _ hge
      omega
    have : (i_block.take 12).getD j 0 = i_block.getD j 0 := by
      unfold List.getD
      rw [List.get?_eq_getElem?, List.get?_eq_getElem?,
        List.getElem?_take_of_lt hj12]
    rw [this]
    exact hnz j hj

/-- Witness for C4: block size 4, `i_block = [7, 8, 9, 0, …]`, size 6 —
the read equals the 6-byte prefix of blocks 7 and 8 concatenated. -/
theorem read_block_map_data_eq_spec_witness :
    read_block_map_data (fun b => List.replicate 4 b) 4
        [7, 8, 9, 0, 0, 0, 0, 0, 0, 0, 0, 0, 0, 0, 0] 6
      = specBlockMapRead (fun b => List.replicate 4 b) 4
        [7, 8, 9, 0, 0, 0, 0, 0, 0, 0, 0, 0, 0, 0, 0] 6 := by
  apply read_block_map_data_eq_spec (fun b => List.replicate 4 b) 4
    [7, 8, 9, 0, 0, 0, 0, 0, 0, 0, 0, 0, 0, 0, 0] 6
    (by decide) (by decide) (by decide)
  intro j hj
  have : j = 0 ∨ j = 1 := by omega
  rcases this with h | h <;> subst h <;> decide

/-! ## fs/vfs/vfs.rs : the virtual file system

Rust `&str` operations used by the path code (`split('/')`,
`starts_with('/')`, `trim_end_matches('/')`, `rfind('/')`) are implemented
on the string's character list so that every definition evaluates
structurally. -/

/-- Rust `str::split(c)`: `n` separators yield `n + 1` pieces. -/
def splitChar (c : Char) : List Char → List (List Char)
  | [] => [[]]
  | x :: xs =>
      if x = c then [] :: splitChar c xs
      else
        match splitChar c xs with
        | h :: t => (x :: h) :: t
        | [] => [[x]]

/-- Rust `path.split('/')` as a list of strings. -/
def splitOnSlash (s : String) : List String :=
  (splitChar '/' s.data).map (fun cs => String.mk cs)

/-- Rust `path.starts_with('/')`. -/
def startsWithSlash (s : String) : Bool :=
  match s.data with
  | '/' :: _ => true
  | _ => false

/-- Rust `path.trim_end_matches('/')`. -/
def trimEndSlashes (s : String) : String :=
  String.mk ((s.data.reverse.dropWhile (fun ch => ch = '/')).reverse)

/-- Rust `path.rfind('/')`: index of the last `/`, in characters. -/
def rfindSlash (s : String) : Option Nat :=
  (s.data.reverse.findIdx? (fun ch => ch = '/')).map
    (fun i => s.data.length - 1 - i)

/-- Rust `normalize_path` from `src/fs/vfs/vfs.rs`: components `""` and `"."`
are skipped, `".."` pops, everything else is pushed; the result is `"/"`
plus the components joined by `/` (or `"/"` when none survive). -/
def normalize_path (path : String) : String :=
  let components := (splitOnSlash path).foldl
    (fun acc c =>
      if c = "" ∨ c = "." then acc
      else if c = ".." then acc.dropLast
      else acc ++ [c]) ([] : List String)
  if components.isEmpty then "/"
  else "/" ++ String.intercalate "/" components

/-- Rust `VirtualFileSystem` from `src/fs/vfs/vfs.rs`; the
`BTreeMap<InodeNumber, VfsNode>` is an association list with unique keys in
every reachable state. -/
structure VirtualFileSystem where
  nodes : List (Nat × VfsNode)
  next_inode : Nat
  cwd : String
deriving DecidableEq, Repr

/-- Rust `self.nodes.get(&i)` on the inode map. -/
def getVfsNode (nodes : List (Nat × VfsNode)) (i : Nat) : Option VfsNode :=
  (nodes.find? (fun p => p.1 = i)).map (fun p => p.2)

/-- Rust `self.nodes.insert(i, n)`: replace an existing binding or append a new
one, as `BTreeMap::insert` does. -/
def insertVfsNode (nodes : List (Nat × VfsNode)) (i : Nat) (n : VfsNode) :
    List (Nat × VfsNode) :=
  if nodes.any (fun p => p.1 = i) then
    nodes.map (fun p => if p.1 = i then (i, n) else p)
  else nodes ++ [(i, n)]

/-- Rust `VirtualFileSystem::new` from `src/fs/vfs/vfs.rs`: a root directory at
inode 1; inode allocation starts at 2. -/
def VirtualFileSystem.new : VirtualFileSystem :=
  { nodes := [(1, VfsNode.new_directory "/" 1 0o755)]
    next_inode := 2
    cwd := "/" }

/-- Rust `VirtualFileSystem::resolve_path` from `src/fs/vfs/vfs.rs`. -/
def VirtualFileSystem.resolve_path (v : VirtualFileSystem) (path : String) :
    String :=
  if startsWithSlash path then normalize_path path
  else normalize_path (v.cwd ++ "/" ++ path)

/-- The component walk of `VirtualFileSystem::lookup_path`. -/
def walkComponents (v : VirtualFileSystem) :
    List String → Nat → Except FsError Nat
  | [], current => .ok current
  | c :: rest, current =>
      match getVfsNode v.nodes current with
      | none => .error .NotFound
      | some node =>
          if ¬ node.is_dir then .error .NotDirectory
          else
            match node.lookup c with
            | .ok e => walkComponents v rest e.inode
            | .error err => .error err

/-- Rust `VirtualFileSystem::lookup_path` from `src/fs/vfs/vfs.rs`. -/
def VirtualFileSystem.lookup_path (v : VirtualFileSystem) (path : String) :
    Except FsError VfsNode :=
  let p := v.resolve_path path
  if p = "/" then
    match getVfsNode v.nodes 1 with
    | some n => .ok n
    | none => .error .NotFound
  else
    match walkComponents v ((splitOnSlash p).filter (fun s => s ≠ "")) 1 with
    | .ok i =>
        match getVfsNode v.nodes i with
        | some n => .ok n
        | none => .error .NotFound
    | .error e => .error e

/-- Rust `VirtualFileSystem::get_parent_and_name` from `src/fs/vfs/vfs.rs`. -/
def VirtualFileSystem.get_parent_and_name (v : VirtualFileSystem)
    (path : String) : Except FsError (String × String) :=
  let p := v.resolve_path path
  if p = "/" then .error .InvalidArgument
  else
    let p2 := trimEndSlashes p
    match rfindSlash p2 with
    | some pos =>
        .ok (if pos = 0 then "/" else String.mk (p2.data.take pos),
             String.mk (p2.data.drop (pos + 1)))
    | none => .error .InvalidPath

/-- Rust `VirtualFileSystem::create_file` from `src/fs/vfs/vfs.rs`.  The Rust
method mutates `self` and returns `FsResult<VfsNode>`; the embedding
returns the state alongside the result, so the mutations already performed
when an error path is taken (the advanced inode counter and the node
inserted before `add_entry` runs) stay visible. -/
def VirtualFileSystem.create_file (v : VirtualFileSystem) (path : String)
    (mode : Nat) : VirtualFileSystem × Except FsError VfsNode :=
  match v.get_parent_and_name path with
  | .error e => (v, .error e)
  | .ok (parent_path, name) =>
      match v.lookup_path parent_path with
      | .error e => (v, .error e)
      | .ok parent =>
          if ¬ parent.is_dir then (v, .error .NotDirectory)
          else
            let inode := v.next_inode
            let node := VfsNode.new_file name inode (mode &&& 0o7777)
            let v2 : VirtualFileSystem :=
              { v with
                next_inode := v.next_inode + 1
                nodes := insertVfsNode v.nodes inode node }
            match getVfsNode v2.nodes parent.inode with
            | none => (v2, .error .NotFound)
            | some pnode =>
                match pnode.add_entry ⟨name, inode, .Regular⟩ with
                | .error e => (v2, .error e)
                | .ok pnode2 =>
                    ({ v2 with
                       nodes := insertVfsNode v2.nodes parent.inode pnode2 },
                     .ok node)

/-- Rust `VirtualFileSystem::set_cwd` from `src/fs/vfs/vfs.rs`: resolve, check
the target exists and is a directory, then store the resolved path. -/
def VirtualFileSystem.set_cwd (v : VirtualFileSystem) (path : String) :
    Except FsError VirtualFileSystem :=
  let resolved := v.resolve_path path
  match v.lookup_path resolved with
  | .error e => .error e
  | .ok node =>
      if ¬ node.is_dir then .error .NotDirectory
      else .ok { v with cwd := resolved }

/-! ## kernel/sys/syscalls.rs : `sys_chdir` -/

/-- Rust `sys_chdir` from `src/kernel/sys/syscalls.rs` (syscall number 80).
The user pointer is `none` when null; a valid UTF-8 path is copied into
the current task's `cwd` field unconditionally — the source performs no
VFS lookup at all. -/
def sys_chdir (s : Scheduler) (pathname : Option String) : Int × Scheduler :=
  match pathname with
  | none => (-14, s)
  | some p =>
      match s.current_pid with
      | some cp =>
          match s.get_task cp with
          | some _ =>
              (0, { s with
                    tasks := updateFirstTask s.tasks cp
                      (fun t => { t with cwd := p }) })
          | none => (-3, s)
      | none => (-3, s)

/-! ## Claim C6 : `chdir` path validation -/

/-- A scheduler whose current task (pid 1) has cwd `/`. -/
def chdir_state : Scheduler :=
  { tasks := [Task.new 1 "sh" 0 true]
    ready_queue := [[], [], [], [], []]
    current_pid := some 1
    next_pid := 2
    idle_pid := none
    ticks := 0
    time_slice := 10
    preemption_enabled := true }

/-- C6 (code bug): the claim says syscall 80 validates that the path is an
existing directory and fails without changing `cwd` otherwise.  In the
fresh VFS the path `/nonexistent` does not resolve (`lookup_path` and the
validating `VirtualFileSystem::set_cwd` both return `NotFound`), yet
`sys_chdir` returns 0 and overwrites the current task's `cwd` with the raw
string: the syscall never consults the VFS. -/
theorem sys_chdir_skips_validation :
    VirtualFileSystem.new.lookup_path "/nonexistent" = .error .NotFound ∧
    VirtualFileSystem.new.set_cwd "/nonexistent" = .error .NotFound ∧
    (sys_chdir chdir_state (some "/nonexistent")).1 = 0 ∧
    ((sys_chdir chdir_state (some "/nonexistent")).2.get_task 1).map Task.cwd
      = some "/nonexistent" := by
  exact ⟨rfl, rfl, rfl, rfl⟩

/-! ## Claim C9 : `create_file` on a duplicate name -/

/-- Root directory whose entry list already holds a file named `a`. -/
def c9Root : VfsNode :=
  { VfsNode.new_directory "/" 1 0o755 with
      data := .Directory [⟨".", 1, .Directory⟩, ⟨"a", 2, .Regular⟩] }

def c9File : VfsNode := VfsNode.new_file "a" 2 0o644

/-- VFS state with a root (inode 1) containing the file `a` (inode 2). -/
def c9VFS : VirtualFileSystem :=
  { nodes := [(1, c9Root), (2, c9File)], next_inode := 3, cwd := "/" }

/-- Counterexample to C9 as stated: `create_file("/a")` on `c9VFS` returns
`AlreadyExists`, and the parent's entry list is untouched — but the VFS is
**not** unchanged: the inode counter advanced from 3 to 4 and the freshly
built node was inserted into the inode map (an orphan at key 3) before the
duplicate check in `add_entry` ran. -/
theorem create_file_eexist_leaves_orphan :
    (c9VFS.create_file "/a" 0o644).2 = .error .AlreadyExists ∧
    c9VFS.next_inode = 3 ∧
    (c9VFS.create_file "/a" 0o644).1.next_inode = 4 ∧
    getVfsNode c9VFS.nodes 3 = none ∧
    getVfsNode (c9VFS.create_file "/a" 0o644).1.nodes 3
      = some (VfsNode.new_file "a" 3 0o644) ∧
    getVfsNode (c9VFS.create_file "/a" 0o644).1.nodes 1 = some c9Root ∧
    ¬ ((c9VFS.create_file "/a" 0o644).1 = c9VFS) := by
  refine ⟨rfl, rfl, rfl, rfl, rfl, rfl, fun h => ?_⟩
  exact absurd (congrArg VirtualFileSystem.next_inode h) (by decide)

lemma find_replace_ne (nodes : List (Nat × VfsNode)) (i j : Nat)
    (n : VfsNode) (hij : j ≠ i) :
    (nodes.map (fun p => if p.1 = i then (i, n) else p)).find?
        (fun p => p.1 = j)
      = nodes.find? (fun p => p.1 = j) := by
  induction nodes with
  | nil => rfl
  | cons p rest ih =>
      by_cases hpi : p.1 = i
      · rw [List.map_cons, if_pos hpi]
        rw [List.find?_cons_of_neg _ (by simp [Ne.symm hij]),
          List.find?_cons_of_neg _ (by simp [hpi, Ne.symm hij])]
        exact ih
      · rw [List.map_cons, if_neg hpi]
        by_cases hpj : p.1 = j
        · rw [List.find?_cons_of_pos _ (by simp [hpj]),
            List.find?_cons_of_pos _ (by simp [hpj])]
        · rw [List.find?_cons_of_neg _ (by simp [hpj]),
            List.find?_cons_of_neg _ (by simp [hpj])]
          exact ih

lemma getVfsNode_insert_ne (nodes : List (Nat × VfsNode)) (i j : Nat)
    (n : VfsNode) (hij : j ≠ i) :
    getVfsNode (insertVfsNode nodes i n) j = getVfsNode nodes j := by
  unfold getVfsNode insertVfsNode
  by_cases hany : (nodes.any fun p => decide (p.1 = i)) = true
  · rw [if_pos hany, find_replace_ne _ _ _ _ hij]
  · rw [if_neg hany, List.find?_append]
    have : ([(i, n)].find? fun p => decide (p.1 = j)) = none := by
      simp [Ne.symm hij]
    rw [this]
    cases nodes.find? fun p => decide (p.1 = j) <;> rfl

/-- C9 as amended: when the final name component duplicates an entry of
the resolved directory parent, `create_file` returns `AlreadyExists` and
the parent's entry list is unmodified — but the resulting VFS state is the
input with `next_inode` advanced by one and the freshly built (orphaned)
file node inserted at the old counter value, because the source allocates
and inserts before `add_entry` detects the duplicate. -/
theorem create_file_duplicate_name (v : VirtualFileSystem) (path : String)
    (mode : Nat) (pp name : String) (parent pnode : VfsNode)
    (entries : List DirEntry)
    (h1 : v.get_parent_and_name path = .ok (pp, name))
    (h2 : v.lookup_path pp = .ok parent)
    (h3 : parent.is_dir = true)
    (h5 : parent.inode ≠ v.next_inode)
    (h4 : getVfsNode v.nodes parent.inode = some pnode)
    (h6a : pnode.data = .Directory entries)
    (h6b : (entries.any fun e => decide (e.name = name)) = true) :
    v.create_file path mode
      = ({ v with
            next_inode := v.next_inode + 1
            nodes := insertVfsNode v.nodes v.next_inode
              (VfsNode.new_file name v.next_inode (mode &&& 0o7777)) },
         .error .AlreadyExists) ∧
    getVfsNode (v.create_file path mode).1.nodes parent.inode = some pnode := by
  have hins : getVfsNode
      (insertVfsNode v.nodes v.next_inode
        (VfsNode.new_file name v.next_inode (mode &&& 0o7777)))
      parent.inode = some pnode := by
    rw [getVfsNode_insert_ne _ _ _ _ h5]
    exact h4
  have hadd : pnode.add_entry ⟨name, v.next_inode, .Regular⟩
      = .error .AlreadyExists := by
    simp only [VfsNode.add_entry, h6a]
    rw [if_pos]
    exact h6b
  have hmain : v.create_file path mode
      = ({ v with
            next_inode := v.next_inode + 1
            nodes := insertVfsNode v.nodes v.next_inode
              (VfsNode.new_file name v.next_inode (mode &&& 0o7777)) },
         .error .AlreadyExists) := by
    simp only [VirtualFileSystem.create_file, h1, h2]
    rw [if_neg (by simp [h3])]
    simp only [hins, hadd]
  refine ⟨hmain, ?_⟩
  rw [hmain]
  exact hins

/-- Witness for C9: applying the amended theorem to `c9VFS` and path
`/a`. -/
theorem create_file_duplicate_name_witness :
    c9VFS.create_file "/a" 0o644
      = ({ c9VFS with
            next_inode := 4
            nodes := insertVfsNode c9VFS.nodes 3 (VfsNode.new_file "a" 3 0o644) },
         .error .AlreadyExists) := by
  have h := create_file_duplicate_name c9VFS "/a" 0o644 "/" "a" c9Root c9Root
    [⟨".", 1, .Directory⟩, ⟨"a", 2, .Regular⟩]
    rfl rfl rfl (by decide) rfl rfl (by decide)
  exact h.1

end Qunix
